import Mathlib

/-!
Verification of the CRD schema sync core

A shallow embedding, in Lean 4, of the core pipeline of the
`k8s-crd-schema-sync` repository:

* `src/schema-converter.ts` — `convertSchema`, `convertOpenAPIv3ToJSONSchema`,
  `generateSchemaFilename` (OpenAPI v3 → JSON Schema conversion);
* `src/file-operations.ts` — `saveSchemas`, `detectChangedSchemas`,
  `getSchemaPath` (change detection and persistence);
* `src/crd-parser.ts` — `parseCRDs` (per-version normalization and
  source-based group filtering);
* `src/k8s-client.ts` — `getAuthConfig` (kubeconfig credential resolution);
* `src/index.ts` — `runSync`, `downloadCRDsFromSources` (orchestration).

JavaScript values are modelled by the inductive `Json` below, with an
explicit `undef` constructor for the JavaScript value `undefined`
(`convertOpenAPIv3ToJSONSchema` assigns `type: converted.type`, which puts an
`undefined`-valued key on the result when the converted node has no `type`;
`Object.keys` sees that key while `JSON.stringify` drops it, so the
distinction is observable and must be kept).  JavaScript objects are
association lists in insertion order — the order matters because
`JSON.stringify` output depends on it.  Numbers are modelled as `Int`
(every number appearing in the claims and counterexamples is integral).

Effectful code is embedded by making the effects explicit:

* the filesystem is an association list from absolute path to file content,
  where content is kept at the parsed-JSON level (`FileContent.jsonDoc`)
  or marked unreadable/unparsable (`FileContent.corrupt`) — faithful
  because every consumer of a schema file first runs `JSON.parse` on it,
  and `JSON.parse (JSON.stringify  x, null, 2)` recovers exactly the
  stringify-visible part of `x` (undefined-valued keys removed);
* network fetches and the GitHub PR call are passed in as outcome values
  (`Except`), one per call site, mirroring the `try`/`catch` structure;
* the exec credential plugin invocation of `getAuthConfig` is passed in as
  an `ExecRes` outcome (spawn failure / unparsable stdout / parsed JSON).

Recursive functions over `Json` are written either by mutual structural
recursion through the nested lists, or (for `convertSchema`, whose recursion
goes through key lookups) structurally on an explicit fuel that starts at
`jsize j`, a strict upper bound on the recursion depth, so the
out-of-fuel branch is unreachable; `convertGo_fuel_eq` below proves the
fuel value is irrelevant above the bound.  Everything is executable, so
concrete runs evaluate by `decide`.
-/

set_option maxRecDepth 10000
set_option maxHeartbeats 1000000

/-- A JavaScript value as far as this codebase can observe one: the JSON
grammar plus `undefined`. -/
inductive Json where
  | null
  | bool (b : Bool)
  | num (n : Int)
  | str (s : String)
  | arr (elems : List Json)
  | obj (fields : List (String × Json))
  | undef
deriving Repr, Inhabited

mutual
/-- Structural size of a `Json` value; strict upper bound for every recursion
in this file (each child is strictly smaller). -/
def jsize : Json → Nat
  | .arr xs => 1 + jsizeList xs
  | .obj fs => 1 + jsizeFields fs
  | _ => 1
def jsizeList : List Json → Nat
  | [] => 0
  | x :: xs => 1 + jsize x + jsizeList xs
def jsizeFields : List (String × Json) → Nat
  | [] => 0
  | e :: fs => 1 + jsize e.2 + jsizeFields fs
end

mutual
/-- Boolean equality on `Json`, used to derive decidable equality. -/
def jbeq : Json → Json → Bool
  | .null, .null => true
  | .bool a, .bool b => a == b
  | .num a, .num b => a == b
  | .str a, .str b => a == b
  | .arr xs, .arr ys => jbeqList xs ys
  | .obj fs, .obj gs => jbeqFields fs gs
  | .undef, .undef => true
  | _, _ => false
def jbeqList : List Json → List Json → Bool
  | [], [] => true
  | x :: xs, y :: ys => jbeq x y && jbeqList xs ys
  | _, _ => false
def jbeqFields : List (String × Json) → List (String × Json) → Bool
  | [], [] => true
  | e :: fs, g :: gs => e.1 == g.1 && jbeq e.2 g.2 && jbeqFields fs gs
  | _, _ => false
end

mutual
theorem jbeq_iff : ∀ a b, jbeq a b = true ↔ a = b
  | .null, b => by cases b <;> simp [jbeq]
  | .bool x, b => by cases b <;> simp [jbeq]
  | .num x, b => by cases b <;> simp [jbeq]
  | .str x, b => by cases b <;> simp [jbeq]
  | .arr xs, b => by
      cases b <;> simp [jbeq]
      exact jbeqList_iff xs _
  | .obj fs, b => by
      cases b <;> simp [jbeq]
      exact jbeqFields_iff fs _
  | .undef, b => by cases b <;> simp [jbeq]
theorem jbeqList_iff : ∀ xs ys, jbeqList xs ys = true ↔ xs = ys
  | [], ys => by cases ys <;> simp [jbeqList]
  | x :: xs, ys => by
      cases ys with
      | nil => simp [jbeqList]
      | cons y ys => simp [jbeqList, Bool.and_eq_true, jbeq_iff x y, jbeqList_iff xs ys]
theorem jbeqFields_iff : ∀ fs gs, jbeqFields fs gs = true ↔ fs = gs
  | [], gs => by cases gs <;> simp [jbeqFields]
  | e :: fs, gs => by
      cases gs with
      | nil => simp [jbeqFields]
      | cons g gs =>
        cases e with
        | mk k v =>
          cases g with
          | mk k2 v2 =>
            simp [jbeqFields, Bool.and_eq_true, jbeq_iff v v2, jbeqFields_iff fs gs,
              Prod.ext_iff, and_assoc]
end

instance : DecidableEq Json := fun a b =>
  decidable_of_iff (jbeq a b = true) (jbeq_iff a b)

/-! ## String helpers

The source uses `String.prototype.toLowerCase`, `String.prototype.split`
and the default `Array.prototype.sort` comparator.  They are modelled here
by executable functions that agree with the JavaScript ones on the ASCII
strings this codebase feeds them (CRD kinds, versions, and JSON schema
keys); Lean's own `String.toLower`/ordering are avoided only because they
do not reduce inside the kernel. -/

/-- ASCII lower-casing of one character (models what `toLowerCase` does on
the ASCII identifiers used for kinds and versions). -/
def lowerChar (c : Char) : Char :=
  if 'A' ≤ c ∧ c ≤ 'Z' then Char.ofNat (c.toNat + 32) else c

/-- Models `s.toLowerCase()`. -/
def lowerAscii (s : String) : String := String.mk (s.data.map lowerChar)

/-- Lexicographic comparison by code point; agrees with the default
JavaScript `Array.sort` string comparator (UTF-16 code unit order) on the
basic-plane strings appearing as JSON schema keys. -/
def strLeB (a b : String) : Bool := go a.data b.data where
  go : List Char → List Char → Bool
    | [], _ => true
    | _ :: _, [] => false
    | x :: xs, y :: ys => if x = y then go xs ys else decide (x.toNat ≤ y.toNat)

/-- Insert into a sorted list of strings (helper for `sortStrs`). -/
def insertStr (s : String) : List String → List String
  | [] => [s]
  | t :: ts => if strLeB s t then s :: t :: ts else t :: insertStr s ts

/-- Models `Array.prototype.sort()` on an array of strings (insertion sort;
any comparison sort produces the same output on the duplicate-free key
lists it is applied to). -/
def sortStrs (l : List String) : List String := l.foldr insertStr []

/-- Models `s.split(".")[0]`: the prefix of `s` up to the first dot. -/
def firstSegment (s : String) : String :=
  String.mk (s.data.takeWhile (fun c => c ≠ '.'))

/-! ## JavaScript value semantics used by the source -/

/-- JavaScript truthiness of a value. -/
def truthy : Json → Bool
  | .null => false
  | .undef => false
  | .bool b => b
  | .num n => n != 0
  | .str s => s ≠ ""
  | .arr _ => true
  | .obj _ => true

/-- `typeof v === "object"` (true for plain objects, arrays and `null`). -/
def typeofObject : Json → Bool
  | .null => true
  | .arr _ => true
  | .obj _ => true
  | _ => false

/-- The guard of `convertSchema`: the node is recursed into exactly when
`typeof schema === "object" && schema !== null`, i.e. it is an array or a
plain object. -/
def isSchemaNode : Json → Bool
  | .arr _ => true
  | .obj _ => true
  | _ => false

/-- Own enumerable properties in insertion order (`Object.entries`): an
object yields its fields, an array its elements under their decimal index
keys, anything else none. -/
def entriesOf : Json → List (String × Json)
  | .obj fs => fs
  | .arr xs => xs.enum.map (fun p => (toString p.1, p.2))
  | _ => []

/-- Property read `j[k]` (for the string keys the source reads). -/
def jsGet (j : Json) (k : String) : Option Json := (entriesOf j).lookup k

/-- `Object.keys j`. -/
def keysOf (j : Json) : List String := (entriesOf j).map Prod.fst

/-! ## Schema converter (`src/schema-converter.ts`)

`convertSchema` recurses through key lookups, so it is written structurally
on a fuel that starts at `jsize j`; every recursive call is on a value of
strictly smaller `jsize`, so the fuel never reaches the (placeholder-valued)
zero branch.  The field-segment helpers below each model one
`if (...) result.k = ...` block of the source, in source order. -/

/-- `if (obj[k]) result[k] = obj[k]` — copy a field when truthy. -/
def fieldTruthy (j : Json) (k : String) : List (String × Json) :=
  match jsGet j k with
  | some v => if truthy v then [(k, v)] else []
  | none => []

/-- `if (typeof obj[k] === "number") result[k] = obj[k]`. -/
def fieldNum (j : Json) (k : String) : List (String × Json) :=
  match jsGet j k with
  | some (.num n) => [(k, .num n)]
  | _ => []

/-- `if (obj[k] !== undefined) result[k] = obj[k]` (used for `default`). -/
def fieldDefined (j : Json) (k : String) : List (String × Json) :=
  match jsGet j k with
  | some v => if v = .undef then [] else [(k, v)]
  | none => []

/-- `if (obj.format && typeof obj.format === "string") result.format = obj.format`. -/
def fieldFormat (j : Json) : List (String × Json) :=
  match jsGet j "format" with
  | some (.str s) => if s ≠ "" then [("format", .str s)] else []
  | _ => []

/-- `if (Array.isArray(obj.required)) result.required = obj.required.filter(string)`. -/
def fieldRequired (j : Json) : List (String × Json) :=
  match jsGet j "required" with
  | some (.arr xs) => [("required", .arr (xs.filter (fun x => x matches .str _)))]
  | _ => []

/-- `if (obj.items) result.items = convertSchema(obj.items)`; `conv` is the
recursive call at the next fuel level. -/
def fieldItems (j : Json) (conv : Json → Json) : List (String × Json) :=
  match jsGet j "items" with
  | some v => if truthy v then [("items", conv v)] else []
  | none => []

/-- `if (obj.properties && typeof obj.properties === "object")` — convert
every entry of `properties`. -/
def fieldProperties (j : Json) (conv : Json → Json) : List (String × Json) :=
  match jsGet j "properties" with
  | some p =>
    if truthy p && typeofObject p then
      [("properties", .obj ((entriesOf p).map (fun e => (e.1, conv e.2))))]
    else []
  | none => []

/-- `if (obj.additionalProperties !== undefined)`: recurse when it is
`object`-typed (`null` included), copy the value verbatim otherwise. -/
def fieldAdditional (j : Json) (conv : Json → Json) : List (String × Json) :=
  match jsGet j "additionalProperties" with
  | some v =>
    if v = .undef then []
    else if typeofObject v then [("additionalProperties", conv v)]
    else [("additionalProperties", v)]
  | none => []

/-- `if (Array.isArray(obj[k])) result[k] = obj[k].map(convertSchema)` —
used for `allOf`, `anyOf`, `oneOf`. -/
def fieldCombinator (j : Json) (k : String) (conv : Json → Json) : List (String × Json) :=
  match jsGet j k with
  | some (.arr xs) => [(k, .arr (xs.map conv))]
  | _ => []

/-- `if (obj.not) result.not = convertSchema(obj.not)`. -/
def fieldNot (j : Json) (conv : Json → Json) : List (String × Json) :=
  match jsGet j "not" with
  | some v => if truthy v then [("not", conv v)] else []
  | none => []

/-- The fields assigned before the `x-kubernetes-preserve-unknown-fields`
copy, in source assignment order (the `x-kubernetes-validations` block sits
between `$ref` and that copy in the source but deliberately assigns
nothing). -/
def convertFieldsPre (j : Json) (conv : Json → Json) : List (String × Json) :=
  fieldTruthy j "type" ++ fieldTruthy j "description" ++ fieldTruthy j "enum"
    ++ fieldDefined j "default" ++ fieldFormat j
    ++ fieldNum j "minimum" ++ fieldNum j "maximum"
    ++ fieldNum j "exclusiveMinimum" ++ fieldNum j "exclusiveMaximum"
    ++ fieldNum j "minLength" ++ fieldNum j "maxLength"
    ++ fieldTruthy j "pattern"
    ++ fieldItems j conv
    ++ fieldNum j "minItems" ++ fieldNum j "maxItems"
    ++ fieldProperties j conv
    ++ fieldAdditional j conv
    ++ fieldRequired j
    ++ fieldCombinator j "allOf" conv
    ++ fieldCombinator j "anyOf" conv
    ++ fieldCombinator j "oneOf" conv
    ++ fieldNot j conv
    ++ fieldTruthy j "$ref"

/-- The fields assigned after it: `example`, `examples`. -/
def convertFieldsPost (j : Json) : List (String × Json) :=
  fieldTruthy j "example" ++ fieldTruthy j "examples"

/-- The recursive tree transform `convertSchema`, on explicit fuel.
Mirrors `src/schema-converter.ts` lines 22–153: a non-object (or `null`)
node becomes the placeholder `{type: "unknown"}`; otherwise each recognized
field is copied/recursed in source assignment order.
`x-kubernetes-validations` is read but deliberately not copied (the source
comments that JSON schema cannot express it), and of the Kubernetes
extensions only `x-kubernetes-preserve-unknown-fields` is copied. -/
def convertGo : Nat → Json → Json
  | 0, _ => .obj [("type", .str "unknown")]
  | fuel + 1, j =>
    if isSchemaNode j = false then .obj [("type", .str "unknown")]
    else
      .obj (convertFieldsPre j (convertGo fuel)
        ++ fieldTruthy j "x-kubernetes-preserve-unknown-fields"
        ++ convertFieldsPost j)

/-- `convertSchema` of the source, with the fuel instantiated to its bound. -/
def convertSchema (j : Json) : Json := convertGo (jsize j) j

/-- The draft-07 meta-schema URL the source stamps on every document. -/
def jsonSchemaDraft07 : String := "http://json-schema.org/draft-07/schema#"

/-- `convertOpenAPIv3ToJSONSchema`: spreads the converted node after a
`$schema` key and re-assigns `type: converted.type`.  When the converted
node already has a `type` key the re-assignment changes nothing (same value,
same position); when it does not, a `type` key holding JavaScript
`undefined` is appended (visible to `Object.keys`, dropped by
`JSON.stringify`). -/
def convertOpenAPIv3ToJSONSchema (j : Json) : Json :=
  let fs := entriesOf (convertSchema j)
  .obj (("$schema", .str jsonSchemaDraft07) ::
    (if (fs.lookup "type").isSome then fs else fs ++ [("type", .undef)]))

/-- `generateSchemaFilename kind version = lowercase(kind) ++ "_" ++ lowercase(version) ++ ".json"`. -/
def generateSchemaFilename (kind version : String) : String :=
  lowerAscii kind ++ "_" ++ lowerAscii version ++ ".json"

/-- `getSchemaPath` / `generateSchemaPath` of `file-operations.ts`. -/
def getSchemaPath (group kind version : String) : String :=
  group ++ "/" ++ generateSchemaFilename kind version

/-! ## `JSON.stringify` as the source uses it -/

/-- One character of a JSON-quoted string. -/
def escapeChar (c : Char) : String :=
  if c = '"' then "\\\""
  else if c = '\\' then "\\\\"
  else if c = '\n' then "\\n"
  else if c = '\r' then "\\r"
  else if c = '\t' then "\\t"
  else if c = Char.ofNat 8 then "\\b"
  else if c = Char.ofNat 12 then "\\f"
  else if c.toNat < 32 then
    "\\u00" ++ String.mk [Char.ofNat (if c.toNat / 16 < 10 then 48 + c.toNat / 16 else 87 + c.toNat / 16),
      Char.ofNat (if c.toNat % 16 < 10 then 48 + c.toNat % 16 else 87 + c.toNat % 16)]
  else String.mk [c]

/-- JSON string quoting. -/
def jsonQuote (s : String) : String := "\"" ++ String.join (s.data.map escapeChar) ++ "\""

/-- Comma-join (compact `JSON.stringify` separator). -/
def joinComma : List String → String
  | [] => ""
  | [x] => x
  | x :: xs => x ++ "," ++ joinComma xs

mutual
/-- `JSON.stringify(v, K)` with an array replacer `K` and no indentation:
at every object (the root included) only the keys listed in `K` are
serialized, in the order of `K`; `undefined`-valued entries are dropped;
`undefined` array elements print as `null`; a root `undefined` yields no
string.  In `jstr`, `(jstrFields K fs).lookup k` serializes the looked-up
property — identical to looking up first and then serializing, since
`jstrFields` maps over the fields keeping keys and order. -/
def jstr (K : List String) : Json → Option String
  | .undef => none
  | .null => some "null"
  | .bool b => some (cond b "true" "false")
  | .num n => some (toString n)
  | .str s => some (jsonQuote s)
  | .arr xs => some ("[" ++ joinComma (jstrArr K xs) ++ "]")
  | .obj fs => some ("\x7b" ++ joinComma (K.filterMap (fun k =>
      match (jstrFields K fs).lookup k with
      | some (some s) => some (jsonQuote k ++ ":" ++ s)
      | some none => none
      | none => none)) ++ "\x7d")
def jstrArr (K : List String) : List Json → List String
  | [] => []
  | x :: xs => ((jstr K x).getD "null") :: jstrArr K xs
def jstrFields (K : List String) : List (String × Json) → List (String × Option String)
  | [] => []
  | e :: fs => (e.1, jstr K e.2) :: jstrFields K fs
end

/-- The comparison form used by `detectChangedSchemas`:
`JSON.stringify(x, Object.keys(x).sort())`. -/
def stringifyKeySorted (j : Json) : Option String := jstr (sortStrs (keysOf j)) j

mutual
/-- The JSON value that `JSON.parse(JSON.stringify(v, null, 2))` recovers:
`undefined`-valued object entries removed, `undefined` array elements read
back as `null`.  Used to model file contents at the parsed-value level. -/
def stripUndef : Json → Json
  | .arr xs => .arr (stripUndefArr xs)
  | .obj fs => .obj (stripUndefFields fs)
  | .undef => .null
  | x => x
def stripUndefArr : List Json → List Json
  | [] => []
  | x :: xs => stripUndef x :: stripUndefArr xs
def stripUndefFields : List (String × Json) → List (String × Json)
  | [] => []
  | e :: fs =>
    if e.2 = .undef then stripUndefFields fs
    else (e.1, stripUndef e.2) :: stripUndefFields fs
end

/-- Insert a field into a key-sorted field list (stable). -/
def insertField (e : String × Json) : List (String × Json) → List (String × Json)
  | [] => [e]
  | t :: ts => if strLeB e.1 t.1 then e :: t :: ts else t :: insertField e ts

mutual
/-- Canonical form: object keys sorted recursively.  Two values are equal
as JSON values (key order disregarded, formatting immaterial) exactly when
their canonical forms are equal. -/
def canon : Json → Json
  | .arr xs => .arr (canonArr xs)
  | .obj fs => .obj ((canonFields fs).foldr insertField [])
  | x => x
def canonArr : List Json → List Json
  | [] => []
  | x :: xs => canon x :: canonArr xs
def canonFields : List (String × Json) → List (String × Json)
  | [] => []
  | e :: fs => (e.1, canon e.2) :: canonFields fs
end

/-- Structural JSON-value equality: equal after dropping `undefined`
members and sorting all object keys. -/
def jsonValueEq (a b : Json) : Prop := canon (stripUndef a) = canon (stripUndef b)

/-! ## Filesystem model and file operations (`src/file-operations.ts`)

Files are modelled at the parsed level: a path maps to a parsed JSON
document, or to `corrupt` for a file that cannot be read or whose text
`JSON.parse` rejects.  This is faithful because every reader of a schema
file parses it before use, and what `JSON.parse` recovers from the written
text `JSON.stringify(schema, null, 2)` is exactly `stripUndef schema`. -/

/-- Content of one on-disk file, at the parsed level. -/
inductive FileContent where
  | jsonDoc (j : Json)
  | corrupt
deriving Repr, DecidableEq

/-- The filesystem: newest-first association list from path to content. -/
abbrev FS := List (String × FileContent)

/-- Read a file (`Bun.file(path)` + exists/text/parse). -/
def fsLookup (fs : FS) (p : String) : Option FileContent := fs.lookup p

/-- Write a file (`Bun.write`); newest entry shadows older ones. -/
def fsWrite (p : String) (c : FileContent) (fs : FS) : FS := (p, c) :: fs

/-! ## Sources and parsed records (`src/types.ts`) -/

/-- URL-based CRD source (`URLCRDSource`); `group` is the optional group
filter, with the empty string for an absent/falsy one. -/
structure URLCRDSource where
  id : String
  name : String
  url : String
  group : String
  enabled : Bool
deriving Repr, DecidableEq

/-- Kubernetes-cluster CRD source (`K8sClusterCRDSource`); `nsFilter`
models the reserved `namespace` field (a Lean keyword). -/
structure K8sClusterCRDSource where
  id : String
  name : String
  context : Option String
  nsFilter : Option String
  apiServerUrl : Option String
  caPath : Option String
  enabled : Bool
deriving Repr, DecidableEq

/-- `CRDSource = URLCRDSource | K8sClusterCRDSource`, discriminated on the
`type` tag in the source. -/
inductive CRDSource where
  | url (u : URLCRDSource)
  | cluster (c : K8sClusterCRDSource)
deriving Repr, DecidableEq

def CRDSource.enabled : CRDSource → Bool
  | .url u => u.enabled
  | .cluster c => c.enabled

def CRDSource.name : CRDSource → String
  | .url u => u.name
  | .cluster c => c.name

/-- `versions[i].schema` — the wrapper holding the embedded schema. -/
structure CRDVersionSchema where
  openAPIV3Schema : Option Json
deriving Repr, DecidableEq

/-- One declared API version of a CRD. -/
structure CRDVersion where
  name : String
  schema : Option CRDVersionSchema
  served : Option Bool
  storage : Option Bool
deriving Repr, DecidableEq

structure CRDNames where
  kind : String
  singular : Option String
  plural : Option String
deriving Repr, DecidableEq

structure CRDSpec where
  group : String
  names : CRDNames
  versions : List CRDVersion
deriving Repr, DecidableEq

structure CRDMetadata where
  name : String
deriving Repr, DecidableEq

/-- A raw CRD manifest (`K8sCRD`). -/
structure K8sCRD where
  apiVersion : String
  kind : String
  metadata : CRDMetadata
  spec : CRDSpec
deriving Repr, DecidableEq

/-- One normalized per-version record (`ParsedCRD`).  The source also
stores `rawYAML := YAML.stringify(crd)`; YAML serialization is outside
this embedding and no claim mentions that field, so it is omitted. -/
structure ParsedCRD where
  name : String
  pluralName : String
  group : String
  kind : String
  version : String
  openAPIV3Schema : Json
  source : CRDSource
deriving Repr, DecidableEq

/-! ## CRD normalizer (`parseCRDs`, `src/crd-parser.ts` in part_006) -/

/-- `versionSpec.schema?.openAPIV3Schema`. -/
def versionSchemaOf (v : CRDVersion) : Option Json :=
  v.schema.bind (fun s => s.openAPIV3Schema)

/-- The skip condition of the per-CRD loop:
`source.type === "url" && source.group && group !== source.group`.
Cluster sources accept every group. -/
def skipByGroupFilter (source : CRDSource) (group : String) : Bool :=
  match source with
  | .url u => u.group ≠ "" && group ≠ u.group
  | .cluster _ => false

/-- The record pushed for one (CRD, version) pair. -/
def mkRecord (source : CRDSource) (crd : K8sCRD) (versionSpec : CRDVersion)
    (schema : Json) : ParsedCRD :=
  { name := crd.metadata.name
    pluralName := firstSegment crd.metadata.name
    group := crd.spec.group
    kind := crd.spec.names.kind
    version := versionSpec.name
    openAPIV3Schema := schema
    source := source }

/-- The body of the outer loop of `parseCRDs` for one raw CRD: skip the
whole CRD when the group filter rejects it; otherwise one record per
version whose `schema?.openAPIV3Schema` is truthy (a falsy/absent schema
is skipped with a warning, never an error). -/
def recordsFor (source : CRDSource) (crd : K8sCRD) : List ParsedCRD :=
  if skipByGroupFilter source crd.spec.group then []
  else
    crd.spec.versions.filterMap (fun versionSpec =>
      match versionSchemaOf versionSpec with
      | some schema =>
        if truthy schema then some (mkRecord source crd versionSpec schema) else none
      | none => none)

/-- `parseCRDs`: the nested push-loops, as a left fold accumulating the
emitted records in order. -/
def parseCRDs (crds : List K8sCRD) (source : CRDSource) : List ParsedCRD :=
  crds.foldl (fun parsed crd => parsed ++ recordsFor source crd) []

/-! ## Change detection and persistence (`src/file-operations.ts`) -/

/-- `detectChangedSchemas`: keep a record when its canonical file is
missing, unreadable/unparsable, or when the two
`JSON.stringify(x, Object.keys(x).sort())` serializations differ. -/
def detectChangedSchemas (newCRDs : List ParsedCRD) (workDir : String) (fs : FS) :
    List ParsedCRD :=
  newCRDs.filter (fun crd =>
    let schema := convertOpenAPIv3ToJSONSchema crd.openAPIV3Schema
    let filePath := workDir ++ "/" ++ crd.group ++ "/" ++
      generateSchemaFilename crd.kind crd.version
    match fsLookup fs filePath with
    | none => true
    | some .corrupt => true
    | some (.jsonDoc existing) =>
      stringifyKeySorted schema != stringifyKeySorted existing)

/-- JavaScript object update `files[k] = v`: overwrite in place when the
key exists, append otherwise. -/
def setKV (m : List (String × Json)) (k : String) (v : Json) : List (String × Json) :=
  if m.any (fun e => e.1 == k) then m.map (fun e => if e.1 == k then (k, v) else e)
  else m ++ [(k, v)]

/-- One iteration of the `saveSchemas` loop: convert the record and write
it at `{workDir}/{group}/{kind}_{version}.json`.  The written text is
`JSON.stringify(schema, null, 2)`, modelled at the parsed level as
`stripUndef schema`; `ensureDirectoryExists` has no observable effect in
this filesystem model. -/
def saveStep (workDir : String) (st : List (String × Json) × FS) (crd : ParsedCRD) :
    List (String × Json) × FS :=
  let schema := convertOpenAPIv3ToJSONSchema crd.openAPIV3Schema
  let filename := generateSchemaFilename crd.kind crd.version
  let fullPath := workDir ++ "/" ++ crd.group ++ "/" ++ filename
  let content := stripUndef schema
  (setKV st.1 (crd.group ++ "/" ++ filename) content,
    fsWrite fullPath (.jsonDoc content) st.2)

/-- `saveSchemas`: converts and writes every given record, returning the
map from relative path to written content together with the updated
filesystem. -/
def saveSchemas (crds : List ParsedCRD) (workDir : String) (fs : FS) :
    List (String × Json) × FS :=
  crds.foldl (saveStep workDir) ([], fs)

/-! ## Orchestration (`src/index.ts` in part_006)

`fetchAndParseCRDs` performs network I/O; each enabled source's fetch
outcome is therefore an input (`Except`: the caught exception's message, or
the fetched raw CRDs).  The GitHub branch (`parseGitHubRepo` +
`createPRWithFiles`) is likewise abstracted as one `Except` outcome. -/

instance {ε α : Type} [DecidableEq ε] [DecidableEq α] : DecidableEq (Except ε α) := fun a b =>
  match a, b with
  | .ok x, .ok y => decidable_of_iff (x = y) (by simp)
  | .error x, .error y => decidable_of_iff (x = y) (by simp)
  | .ok _, .error _ => isFalse (by simp)
  | .error _, .ok _ => isFalse (by simp)

/-- One configured source together with the outcome its fetch would have. -/
structure SourceFetch where
  source : CRDSource
  outcome : Except String (List K8sCRD)
deriving Repr, DecidableEq

/-- The per-source loop shared by `runSync` and `downloadCRDsFromSources`:
disabled sources are skipped; a successful fetch appends its parsed
records; a failed fetch appends `Failed to fetch from {name}: {error}` to
the error list and continues. -/
def fetchLoop (sources : List SourceFetch) : List ParsedCRD × List String :=
  sources.foldl (fun st sf =>
    if sf.source.enabled = false then st
    else
      match sf.outcome with
      | .ok crds => (st.1 ++ parseCRDs crds sf.source, st.2)
      | .error e =>
        (st.1, st.2 ++ ["Failed to fetch from " ++ sf.source.name ++ ": " ++ e]))
    ([], [])

/-- The result record (`SyncResult`). -/
structure SyncResult where
  success : Bool
  message : String
  generatedSchemas : List ParsedCRD
  changedSchemas : List ParsedCRD
  prUrl : Option String
  errors : List String
deriving Repr, DecidableEq

/-- The `throw` message when `createPR` is requested without a token. -/
def tokenRequiredMsg : String :=
  "GITHUB_TOKEN environment variable is required to create PRs"

/-- `runSync`: fetch all enabled sources (collecting per-source errors),
detect changes against `outputDir`, save **all** fetched records, then
optionally create a PR.  Returns the result together with the files map
returned by `saveSchemas` and the updated filesystem.  The two `throw`
sites inside the `try` block after the loop (missing token, and the
GitHub call, which `prOutcome` abstracts) are the only paths to
`success = false`; the outer `catch` records the message and pushes it on
`errors`. -/
def runSync (sources : List SourceFetch) (outputDir : String)
    (createPR dryRun : Bool) (githubToken : Option String)
    (prOutcome : Except String String) (fs : FS) :
    SyncResult × List (String × Json) × FS :=
  let (allCRDs, fetchErrors) := fetchLoop sources
  let changedCRDs := detectChangedSchemas allCRDs outputDir fs
  let (files, fs2) := saveSchemas allCRDs outputDir fs
  if createPR && changedCRDs.length != 0 then
    match githubToken with
    | none =>
      ({ success := false, message := tokenRequiredMsg, generatedSchemas := allCRDs,
         changedSchemas := changedCRDs, prUrl := none,
         errors := fetchErrors ++ [tokenRequiredMsg] }, files, fs2)
    | some _ =>
      if dryRun then
        ({ success := true, message := "Dry run completed. PR would have been created.",
           generatedSchemas := allCRDs, changedSchemas := changedCRDs, prUrl := none,
           errors := fetchErrors }, files, fs2)
      else
        match prOutcome with
        | .ok url =>
          ({ success := true, message := "Successfully created PR: " ++ url,
             generatedSchemas := allCRDs, changedSchemas := changedCRDs,
             prUrl := some url, errors := fetchErrors }, files, fs2)
        | .error e =>
          ({ success := false, message := e, generatedSchemas := allCRDs,
             changedSchemas := changedCRDs, prUrl := none,
             errors := fetchErrors ++ [e] }, files, fs2)
  else if changedCRDs.length = 0 then
    ({ success := true, message := "No changes detected", generatedSchemas := allCRDs,
       changedSchemas := changedCRDs, prUrl := none, errors := fetchErrors }, files, fs2)
  else
    ({ success := true, message := "Schemas generated successfully",
       generatedSchemas := allCRDs, changedSchemas := changedCRDs, prUrl := none,
       errors := fetchErrors }, files, fs2)

/-- `downloadCRDsFromSources`: the same fetch loop, then save everything;
no change detection, no PR, and no failure path after the loop. -/
def downloadCRDsFromSources (sources : List SourceFetch) (outputDir : String) (fs : FS) :
    SyncResult × List (String × Json) × FS :=
  let (allCRDs, fetchErrors) := fetchLoop sources
  let (files, fs2) := saveSchemas allCRDs outputDir fs
  ({ success := true,
     message := "Successfully downloaded " ++ toString allCRDs.length ++ " CRDs to " ++ outputDir,
     generatedSchemas := allCRDs, changedSchemas := [], prUrl := none,
     errors := fetchErrors }, files, fs2)

/-! ## Credential resolver (`getAuthConfig`, `src/k8s-client.ts`)

The kubeconfig document is modelled structurally; the exec credential
plugin invocation (spawn + stdout capture + `JSON.parse`) is an input
outcome.  Error messages follow the source with the quotation marks around
interpolated names dropped. -/

structure ClusterEntryData where
  server : Option String
  certificateAuthority : Option String
  certificateAuthorityData : Option String
  insecureSkipTlsVerify : Option Bool
deriving Repr, DecidableEq

structure ClusterEntry where
  name : String
  cluster : ClusterEntryData
deriving Repr, DecidableEq

structure ContextEntryData where
  cluster : String
  user : String
deriving Repr, DecidableEq

structure ContextEntry where
  name : String
  context : ContextEntryData
deriving Repr, DecidableEq

structure UserEntryData where
  clientCertificate : Option String
  clientCertificateData : Option String
  clientKey : Option String
  clientKeyData : Option String
  token : Option String
  exec : Option Json
deriving Repr, DecidableEq

structure UserEntry where
  name : String
  user : UserEntryData
deriving Repr, DecidableEq

structure KubeConfig where
  clusters : List ClusterEntry
  contexts : List ContextEntry
  currentContext : Option String
  users : List UserEntry
deriving Repr, DecidableEq

/-- `K8sAuthConfig`.  `token` is whatever truthy value the resolver
assigned (a static token is stored as `.str`; an exec plugin may hand back
any JSON value). -/
structure K8sAuthConfig where
  serverUrl : String
  token : Option Json
  cert : Option String
  key : Option String
  caPath : Option String
  skipTlsVerify : Option Bool
deriving Repr, DecidableEq

/-- Outcome of invoking the exec credential plugin: the spawn threw, the
stdout was not JSON, or it parsed to a value. -/
inductive ExecRes where
  | invokeError
  | parseError
  | parsed (j : Json)
deriving Repr, DecidableEq

/-- The two caught failure modes of the plugin invocation. -/
def execFails : ExecRes → Bool
  | .invokeError => true
  | .parseError => true
  | .parsed _ => false

/-- `authResponse.status?.token`, assigned only when truthy; both failure
modes are caught, logged and yield no token. -/
def execTokenOf : ExecRes → Option Json
  | .invokeError => none
  | .parseError => none
  | .parsed j =>
    match jsGet j "status" with
    | some s =>
      if s = .null ∨ s = .undef then none
      else
        match jsGet s "token" with
        | some t => if truthy t then some t else none
        | none => none
    | none => none

/-- Truthiness of an optional string field (absent and `""` are falsy). -/
def strOptTruthy : Option String → Bool
  | some s => s ≠ ""
  | none => false

/-- `expandUser` (`src/utils.ts`): replace a leading `~` with the home
directory when one is known. -/
def expandUser (home : Option String) (path : String) : String :=
  match path.data with
  | '~' :: rest =>
    match home with
    | some h => h ++ String.mk rest
    | none => path
  | _ => path

/-- CA path resolution: prefer the on-disk path, else decode the embedded
data to a timestamp-named temporary file and use that path. -/
def caPathOf (c : ClusterEntryData) (home : Option String) (now : Nat) : Option String :=
  if strOptTruthy c.certificateAuthority then
    some (expandUser home (c.certificateAuthority.getD ""))
  else if strOptTruthy c.certificateAuthorityData then
    some ("/tmp/k8s-ca-" ++ toString now ++ ".crt")
  else none

/-- Client certificate path, same policy as `caPathOf`. -/
def certOf (u : UserEntryData) (home : Option String) (now : Nat) : Option String :=
  if strOptTruthy u.clientCertificate then
    some (expandUser home (u.clientCertificate.getD ""))
  else if strOptTruthy u.clientCertificateData then
    some ("/tmp/k8s-cert-" ++ toString now ++ ".crt")
  else none

/-- Client key path, same policy as `caPathOf`. -/
def keyOf (u : UserEntryData) (home : Option String) (now : Nat) : Option String :=
  if strOptTruthy u.clientKey then
    some (expandUser home (u.clientKey.getD ""))
  else if strOptTruthy u.clientKeyData then
    some ("/tmp/k8s-key-" ++ toString now ++ ".key")
  else none

/-- The exec-plugin branch: attempted only when `user.user.exec` is truthy
and no static token was assigned, and only when `execConfig.command` is
truthy; `execToken` stands for what the attempt would yield. -/
def execAttemptToken (u : UserEntryData) (execToken : Option Json) : Option Json :=
  match u.exec with
  | some ex =>
    if truthy ex then
      match jsGet ex "command" with
      | some cmd => if truthy cmd then execToken else none
      | none => none
    else none
  | none => none

/-- `getAuthConfig`, with the plugin outcome pre-reduced to the token it
would deliver (`execToken`); observationally identical to invoking the
plugin inside the branch, since the branch uses nothing else of it. -/
def getAuthConfigCore (kc : KubeConfig) (contextName : Option String)
    (home : Option String) (now : Nat) (execToken : Option Json) :
    Except String K8sAuthConfig :=
  let currentContextName := if strOptTruthy contextName then contextName else kc.currentContext
  match currentContextName with
  | none => .error "No current context found in kubeconfig and no context specified"
  | some ctxName =>
    if ctxName = "" then .error "No current context found in kubeconfig and no context specified"
    else
      match kc.contexts.find? (fun c => c.name == ctxName) with
      | none => .error ("Context " ++ ctxName ++ " not found in kubeconfig")
      | some context =>
        let clusterName := context.context.cluster
        let userName := context.context.user
        match kc.clusters.find? (fun c => c.name == clusterName) with
        | none => .error ("Cluster " ++ clusterName ++ " not found in kubeconfig")
        | some cluster =>
          let user := kc.users.find? (fun u => u.name == userName)
          match cluster.cluster.server with
          | none => .error ("Server URL not found for cluster " ++ clusterName)
          | some serverUrl =>
            if serverUrl = "" then
              .error ("Server URL not found for cluster " ++ clusterName)
            else
              let base : K8sAuthConfig :=
                { serverUrl := serverUrl, token := none, cert := none, key := none,
                  caPath := caPathOf cluster.cluster home now,
                  skipTlsVerify := cluster.cluster.insecureSkipTlsVerify }
              match user with
              | none => .ok base
              | some u =>
                let staticToken : Option Json :=
                  if strOptTruthy u.user.token then some (.str (u.user.token.getD "")) else none
                let token : Option Json :=
                  match staticToken with
                  | some t => some t
                  | none => execAttemptToken u.user execToken
                .ok { base with
                        cert := certOf u.user home now,
                        key := keyOf u.user home now,
                        token := token }

/-- `getAuthConfig` proper, on a plugin invocation outcome. -/
def getAuthConfig (kc : KubeConfig) (contextName : Option String)
    (home : Option String) (now : Nat) (execRes : ExecRes) :
    Except String K8sAuthConfig :=
  getAuthConfigCore kc contextName home now (execTokenOf execRes)

/-- The user entry the resolver would use (context lookup, then user
lookup), mirroring `getAuthConfigCore`. -/
def resolvedUser (kc : KubeConfig) (contextName : Option String) : Option UserEntry :=
  let currentContextName := if strOptTruthy contextName then contextName else kc.currentContext
  match currentContextName with
  | none => none
  | some ctxName =>
    if ctxName = "" then none
    else
      match kc.contexts.find? (fun c => c.name == ctxName) with
      | none => none
      | some context => kc.users.find? (fun u => u.name == context.context.user)

/-- The static bearer token the resolver would read off the user entry. -/
def staticTokenOf (kc : KubeConfig) (contextName : Option String) : Option Json :=
  match resolvedUser kc contextName with
  | some u => if strOptTruthy u.user.token then some (.str (u.user.token.getD "")) else none
  | none => none

/-! ## Basic lemmas -/

theorem jsize_pos : ∀ j : Json, 1 ≤ jsize j := by
  intro j; cases j <;> simp [jsize]

theorem lookup_eq_some_mem {α : Type} [BEq α] [LawfulBEq α] {β : Type}
    {k : α} {v : β} : ∀ {l : List (α × β)}, l.lookup k = some v → (k, v) ∈ l := by
  intro l
  induction l with
  | nil => intro h; cases h
  | cons e es ih =>
    intro h
    by_cases hk : k = e.1
    · subst hk
      simp [List.lookup] at h
      subst h
      exact List.mem_cons_self _ _
    · have hne : (k == e.1) = false := beq_false_of_ne hk
      simp [List.lookup, hne] at h
      exact List.mem_cons_of_mem _ (ih h)

theorem lookup_eq_some_mem_keys {α : Type} [BEq α] [LawfulBEq α] {β : Type}
    {k : α} {v : β} {l : List (α × β)} (h : l.lookup k = some v) :
    k ∈ l.map Prod.fst := by
  have := lookup_eq_some_mem h
  exact List.mem_map.mpr ⟨(k, v), this, rfl⟩

/-- **C7.**  The schema converter is total with no failure modes: it is a
function in the embedding (the source has no `throw` path), every input —
malformed or not — yields a JSON-Schema document object, and a non-object
node (in the source's own discrimination, `typeof schema !== "object" ||
schema === null`: strings, numbers, booleans, `null`, `undefined`)
degrades to the neutral placeholder `{type: "unknown"}` rather than
throwing. -/
theorem c7_converter_total_placeholder (j : Json) :
    (∃ fields, convertOpenAPIv3ToJSONSchema j = Json.obj fields) ∧
    (isSchemaNode j = false → convertSchema j = Json.obj [("type", Json.str "unknown")]) := by
  constructor
  · exact ⟨_, rfl⟩
  · intro h
    cases j <;> simp_all [isSchemaNode, convertSchema, jsize, convertGo]

/-- Witness for C7 at a malformed (string) input. -/
theorem c7_converter_total_placeholder_witness :
    isSchemaNode (Json.str "oops") = false ∧
    convertSchema (Json.str "oops") = Json.obj [("type", Json.str "unknown")] :=
  ⟨by decide, (c7_converter_total_placeholder (Json.str "oops")).2 (by decide)⟩

/-- **C10.**  For every input, the produced document root carries
`$schema = "http://json-schema.org/draft-07/schema#"` as its first key and
a top-level `type` key: `convertOpenAPIv3ToJSONSchema` prepends `$schema`
and re-assigns `type: converted.type`, so `type` is among the root's keys
even when the converted node had none (it then holds JavaScript
`undefined`). -/
theorem c10_root_schema_and_type (j : Json) :
    jsGet (convertOpenAPIv3ToJSONSchema j) "$schema" = some (Json.str jsonSchemaDraft07) ∧
    "type" ∈ keysOf (convertOpenAPIv3ToJSONSchema j) := by
  constructor
  · simp [convertOpenAPIv3ToJSONSchema, jsGet, entriesOf, List.lookup]
  · show "type" ∈ (entriesOf (Json.obj (("$schema", Json.str jsonSchemaDraft07) ::
      (if ((entriesOf (convertSchema j)).lookup "type").isSome
        then entriesOf (convertSchema j)
        else entriesOf (convertSchema j) ++ [("type", Json.undef)])))).map Prod.fst
    rw [show ∀ fs, entriesOf (Json.obj fs) = fs from fun _ => rfl]
    cases h : (entriesOf (convertSchema j)).lookup "type" with
    | some v =>
      simp only [Option.isSome_some, if_true, List.map_cons]
      exact List.mem_cons_of_mem _ (lookup_eq_some_mem_keys h)
    | none =>
      simp only [Option.isSome_none, Bool.false_eq_true, if_false, List.map_cons,
        List.map_append]
      exact List.mem_cons_of_mem _ (List.mem_append_right _ (by simp))

/-! ## Keys produced by the converter -/

theorem fieldTruthy_key {j : Json} {k : String} {e : String × Json}
    (h : e ∈ fieldTruthy j k) : e.1 = k := by
  unfold fieldTruthy at h
  split at h
  · split at h
    · simp at h; simp [h]
    · cases h
  · cases h

theorem fieldNum_key {j : Json} {k : String} {e : String × Json}
    (h : e ∈ fieldNum j k) : e.1 = k := by
  unfold fieldNum at h
  split at h
  · simp at h; simp [h]
  · cases h

theorem fieldDefined_key {j : Json} {k : String} {e : String × Json}
    (h : e ∈ fieldDefined j k) : e.1 = k := by
  unfold fieldDefined at h
  split at h
  · split at h
    · cases h
    · simp at h; simp [h]
  · cases h

theorem fieldFormat_key {j : Json} {e : String × Json}
    (h : e ∈ fieldFormat j) : e.1 = "format" := by
  unfold fieldFormat at h
  split at h
  · split at h
    · simp at h; simp [h]
    · cases h
  · cases h

theorem fieldRequired_key {j : Json} {e : String × Json}
    (h : e ∈ fieldRequired j) : e.1 = "required" := by
  unfold fieldRequired at h
  split at h
  · simp at h; simp [h]
  · cases h

theorem fieldItems_key {j : Json} {conv : Json → Json} {e : String × Json}
    (h : e ∈ fieldItems j conv) : e.1 = "items" := by
  unfold fieldItems at h
  split at h
  · split at h
    · simp at h; simp [h]
    · cases h
  · cases h

theorem fieldProperties_key {j : Json} {conv : Json → Json} {e : String × Json}
    (h : e ∈ fieldProperties j conv) : e.1 = "properties" := by
  unfold fieldProperties at h
  split at h
  · split at h
    · simp at h; simp [h]
    · cases h
  · cases h

theorem fieldAdditional_key {j : Json} {conv : Json → Json} {e : String × Json}
    (h : e ∈ fieldAdditional j conv) : e.1 = "additionalProperties" := by
  unfold fieldAdditional at h
  split at h
  · split at h
    · cases h
    · split at h
      · simp at h; simp [h]
      · simp at h; simp [h]
  · cases h

theorem fieldCombinator_key {j : Json} {k : String} {conv : Json → Json} {e : String × Json}
    (h : e ∈ fieldCombinator j k conv) : e.1 = k := by
  unfold fieldCombinator at h
  split at h
  · simp at h; simp [h]
  · cases h

theorem fieldNot_key {j : Json} {conv : Json → Json} {e : String × Json}
    (h : e ∈ fieldNot j conv) : e.1 = "not" := by
  unfold fieldNot at h
  split at h
  · split at h
    · simp at h; simp [h]
    · cases h
  · cases h

/-- Keys that can appear before the `x-kubernetes-preserve-unknown-fields`
copy. -/
def preKeys : List String :=
  ["type", "description", "enum", "default", "format", "minimum", "maximum",
   "exclusiveMinimum", "exclusiveMaximum", "minLength", "maxLength", "pattern",
   "items", "minItems", "maxItems", "properties", "additionalProperties",
   "required", "allOf", "anyOf", "oneOf", "not", "$ref"]

/-- Every key the converter can emit. -/
def convertedKeys : List String :=
  preKeys ++ ["x-kubernetes-preserve-unknown-fields", "example", "examples"]

theorem convertFieldsPre_keys {j : Json} {conv : Json → Json} {e : String × Json}
    (h : e ∈ convertFieldsPre j conv) : e.1 ∈ preKeys := by
  simp only [convertFieldsPre, List.append_assoc, List.mem_append, or_assoc] at h
  rcases h with h|h|h|h|h|h|h|h|h|h|h|h|h|h|h|h|h|h|h|h|h|h|h
  all_goals first
    | (rw [fieldTruthy_key h]; decide)
    | (rw [fieldNum_key h]; decide)
    | (rw [fieldDefined_key h]; decide)
    | (rw [fieldFormat_key h]; decide)
    | (rw [fieldItems_key h]; decide)
    | (rw [fieldProperties_key h]; decide)
    | (rw [fieldAdditional_key h]; decide)
    | (rw [fieldRequired_key h]; decide)
    | (rw [fieldCombinator_key h]; decide)
    | (rw [fieldNot_key h]; decide)

theorem convertGo_keys {fuel : Nat} {j : Json} {e : String × Json}
    (h : e ∈ entriesOf (convertGo fuel j)) : e.1 ∈ convertedKeys := by
  cases fuel with
  | zero =>
    simp [convertGo, entriesOf] at h
    simp [h]; decide
  | succ f =>
    by_cases hs : isSchemaNode j = false
    · simp [convertGo, hs, entriesOf] at h
      simp [h]; decide
    · simp only [convertGo] at h
      rw [if_neg hs] at h
      rw [show ∀ fs, entriesOf (Json.obj fs) = fs from fun _ => rfl] at h
      rcases List.mem_append.mp h with h | h
      · rcases List.mem_append.mp h with h | h
        · exact List.mem_append_left _ (convertFieldsPre_keys h)
        · rw [fieldTruthy_key h]; decide
      · simp only [convertFieldsPost, List.mem_append] at h
        rcases h with h | h
        · rw [fieldTruthy_key h]; decide
        · rw [fieldTruthy_key h]; decide

/-- Skip a prefix none of whose keys is `k` when looking up `k`. -/
theorem lookup_skip_of_keys {k : String} {A B : List (String × Json)}
    (hA : ∀ e ∈ A, e.1 ≠ k) : (A ++ B).lookup k = B.lookup k := by
  induction A with
  | nil => rfl
  | cons a as ih =>
    cases a with
    | mk ak av =>
      have hne : (k == ak) = false := by
        have := hA (ak, av) (List.mem_cons_self _ _)
        exact beq_false_of_ne (fun hk => this hk.symm)
      simp only [List.cons_append, List.lookup, hne]
      exact ih (fun e he => hA e (List.mem_cons_of_mem _ he))

/-! ## Claims C4 and C2 on the converter -/

/-- A node carrying `x-kubernetes-list-type` (the claimed pass-through
extensions other than `x-kubernetes-preserve-unknown-fields`). -/
def c4Node : Json := Json.obj [("x-kubernetes-list-type", Json.str "map")]

/-- **C4 counterexample.**  The claim is false as stated: a node carrying
`x-kubernetes-list-type: "map"` converts to a node that does not contain
that key at all (the converter only ever copies
`x-kubernetes-preserve-unknown-fields`). -/
theorem c4_extensions_counterexample :
    jsGet c4Node "x-kubernetes-list-type" = some (Json.str "map") ∧
    jsGet (convertSchema c4Node) "x-kubernetes-list-type" = none := by decide

/-- **C4 (amended).**  Of the seven listed Kubernetes vendor extensions,
only `x-kubernetes-preserve-unknown-fields` is passed through with its
value unmodified (and only when truthy, which every present value of this
boolean flag in practice is); the other six are never present in the
converter's output for any node (`x-kubernetes-validations` is read and
deliberately dropped; the rest are not consulted at all). -/
theorem c4_extensions_amended (j : Json) :
    (∀ v, jsGet j "x-kubernetes-preserve-unknown-fields" = some v → truthy v = true →
      jsGet (convertSchema j) "x-kubernetes-preserve-unknown-fields" = some v) ∧
    (∀ k ∈ (["x-kubernetes-validations", "x-kubernetes-pruning", "x-kubernetes-list-type",
        "x-kubernetes-list-map-keys", "x-kubernetes-int-or-string",
        "x-kubernetes-embedded-resource"] : List String),
      jsGet (convertSchema j) k = none) := by
  constructor
  · intro v hv htv
    have hsn : isSchemaNode j = true := by
      cases j <;> simp_all [jsGet, entriesOf, isSchemaNode]
    obtain ⟨f, hf⟩ : ∃ f, jsize j = f + 1 := ⟨jsize j - 1, by have := jsize_pos j; omega⟩
    unfold convertSchema
    rw [hf]
    simp only [convertGo]
    rw [if_neg (by simp [hsn])]
    unfold jsGet
    rw [show ∀ fs, entriesOf (Json.obj fs) = fs from fun _ => rfl]
    rw [List.append_assoc]
    rw [lookup_skip_of_keys (fun e he =>
      ne_of_mem_of_not_mem (convertFieldsPre_keys he) (by decide))]
    have hft : fieldTruthy j "x-kubernetes-preserve-unknown-fields" =
        [("x-kubernetes-preserve-unknown-fields", v)] := by
      unfold fieldTruthy
      rw [hv]
      simp [htv]
    rw [hft]
    simp [List.lookup]
  · intro k hk
    cases hres : jsGet (convertSchema j) k with
    | none => rfl
    | some v =>
      exfalso
      unfold jsGet at hres
      have hmem := @convertGo_keys (jsize j) j _ (lookup_eq_some_mem (by exact hres))
      have hk2 : k ∈ convertedKeys := hmem
      fin_cases hk <;> exact absurd hk2 (by decide)

/-- Witness node for the amended C4. -/
def c4WitnessNode : Json :=
  Json.obj [("x-kubernetes-preserve-unknown-fields", Json.bool true),
            ("x-kubernetes-list-type", Json.str "map")]

/-- Witness for the amended C4 at a concrete node. -/
theorem c4_extensions_amended_witness :
    jsGet (convertSchema c4WitnessNode) "x-kubernetes-preserve-unknown-fields" =
      some (Json.bool true) ∧
    jsGet (convertSchema c4WitnessNode) "x-kubernetes-validations" = none :=
  ⟨(c4_extensions_amended c4WitnessNode).1 (Json.bool true) (by decide) (by decide),
   (c4_extensions_amended c4WitnessNode).2 "x-kubernetes-validations" (by decide)⟩

/-- The exact input of the repository's own unit test
(`convertOpenAPIv3ToJSONSchema sets additionalProperties=false for nested
objects`). -/
def c2Input : Json :=
  Json.obj [("type", Json.str "object"),
    ("properties", Json.obj [("spec", Json.obj [("type", Json.str "object"),
      ("properties", Json.obj [("size", Json.obj [("type", Json.str "integer")])])])])]

/-- **C2 (the code evaluated at the failing input).**  The converter never
defaults `additionalProperties: false` anywhere: on the repository's own
unit-test input, the nested (non-root) object node `properties.spec` of the
output has no `additionalProperties` key — the test asserts it must be
`false` — and the root also has none (the root half of the claim is the
only part the code satisfies, vacuously). -/
theorem c2_strictness_default_missing :
    (((jsGet (convertOpenAPIv3ToJSONSchema c2Input) "properties").bind
        (fun p => jsGet p "spec")).bind
        (fun s => jsGet s "additionalProperties")) = none ∧
    jsGet (convertOpenAPIv3ToJSONSchema c2Input) "additionalProperties" = none ∧
    (((jsGet (convertOpenAPIv3ToJSONSchema c2Input) "properties").bind
        (fun p => jsGet p "spec")).bind
        (fun s => jsGet s "type")) = some (Json.str "object") := by decide

/-! ## Claim C1 (change detection) -/

/-- A record whose converted schema is
`{$schema, type: "object", properties: {spec: {type: "object"}}}`. -/
def c1CRD : ParsedCRD :=
  { name := "widgets.examples.k8s.io"
    pluralName := "widgets"
    group := "examples.k8s.io"
    kind := "Widget"
    version := "v1"
    openAPIV3Schema := Json.obj [("type", Json.str "object"),
      ("properties", Json.obj [("spec", Json.obj [("type", Json.str "object")])])]
    source := CRDSource.url { id := "t", name := "t", url := "", group := "", enabled := true } }

/-- An on-disk document at the canonical path that differs from the
converted schema as a JSON value — its `properties` object is empty — yet
agrees with it on the top-level key set. -/
def c1Existing : Json :=
  Json.obj [("$schema", Json.str jsonSchemaDraft07), ("type", Json.str "object"),
    ("properties", Json.obj [])]

def c1FS : FS := [("schemas/examples.k8s.io/widget_v1.json", FileContent.jsonDoc c1Existing)]

/-- **C1 (the code evaluated at the failing input).**  The canonical file
exists and parses; the converted schema and the on-disk document differ as
JSON values (below any reordering: `properties` is `{spec: {...}}` versus
`{}`), yet `detectChangedSchemas` reports zero changed entries: the array
replacer `Object.keys(x).sort()` passed to `JSON.stringify` filters
*every* object level down to the top-level key set, so both documents
serialize to the same string and the deep difference is invisible. -/
theorem c1_deep_change_not_detected :
    (detectChangedSchemas [c1CRD] "schemas" c1FS).length = 0 ∧
    fsLookup c1FS "schemas/examples.k8s.io/widget_v1.json" =
      some (FileContent.jsonDoc c1Existing) ∧
    ¬ jsonValueEq (convertOpenAPIv3ToJSONSchema c1CRD.openAPIV3Schema) c1Existing := by
  refine ⟨by decide, by decide, ?_⟩
  unfold jsonValueEq
  decide

/-! ## Claims C5 and C6 (CRD normalizer) -/

theorem truthy_undef_eq : truthy Json.undef = false := rfl

theorem mkRecord_version (source : CRDSource) (crd : K8sCRD) (v : CRDVersion) (s : Json) :
    (mkRecord source crd v s).version = v.name := rfl

/-- The accumulating fold of `parseCRDs` is the concatenation of the
per-CRD record lists, in input order. -/
theorem parseCRDs_eq_flatMap (crds : List K8sCRD) (source : CRDSource) :
    parseCRDs crds source = crds.flatMap (recordsFor source) := by
  have h : ∀ (l : List K8sCRD) (acc : List ParsedCRD),
      l.foldl (fun parsed crd => parsed ++ recordsFor source crd) acc =
        acc ++ l.flatMap (recordsFor source) := by
    intro l
    induction l with
    | nil => intro acc; simp
    | cons crd l ih =>
      intro acc
      simp only [List.foldl_cons, List.flatMap_cons, ih, List.append_assoc]
  exact h crds []

/-- Whether a version entry carries a (truthy) embedded schema. -/
def hasEmbeddedSchema (v : CRDVersion) : Bool :=
  truthy ((versionSchemaOf v).getD Json.undef)

theorem recordsFor_versions (source : CRDSource) (crd : K8sCRD) :
    ∀ vs : List CRDVersion,
      ((vs.filterMap (fun versionSpec =>
          match versionSchemaOf versionSpec with
          | some schema =>
            if truthy schema then some (mkRecord source crd versionSpec schema) else none
          | none => none)).map (fun r => r.version)) =
        (vs.filter hasEmbeddedSchema).map (fun v => v.name)
  | [] => rfl
  | v :: vs => by
    cases hsv : versionSchemaOf v with
    | none =>
      simp only [List.filterMap_cons, List.filter_cons, hsv, hasEmbeddedSchema,
        Option.getD_none, truthy_undef_eq, Bool.false_eq_true, if_false]
      exact recordsFor_versions source crd vs
    | some s =>
      by_cases hts : truthy s = true
      · simp only [List.filterMap_cons, List.filter_cons, hsv, hasEmbeddedSchema,
          Option.getD_some, hts, if_true, List.map_cons, mkRecord_version]
        rw [recordsFor_versions source crd vs]
      · rw [Bool.not_eq_true] at hts
        simp only [List.filterMap_cons, List.filter_cons, hsv, hasEmbeddedSchema,
          Option.getD_some, hts, Bool.false_eq_true, if_false]
        exact recordsFor_versions source crd vs

/-- **C5.**  `parseCRDs` is the in-order concatenation of per-CRD record
lists; for every raw CRD passing the source filter with `N` declared
versions of which `M` carry an embedded (truthy) `openAPIV3Schema`,
exactly `M` records are emitted for that CRD — one per
version-with-schema, in input version order, with `version` equal to the
source version entry's name.  A version entry without a schema is skipped
(warning only) and a CRD contributing zero usable versions yields zero
records; `parseCRDs` is a total function in the embedding, mirroring the
absence of any `throw` path in the source. -/
theorem c5_one_record_per_version_with_schema (crds : List K8sCRD) (source : CRDSource) :
    parseCRDs crds source = crds.flatMap (recordsFor source) ∧
    ∀ crd : K8sCRD, skipByGroupFilter source crd.spec.group = false →
      ((recordsFor source crd).map (fun r => r.version) =
          (crd.spec.versions.filter hasEmbeddedSchema).map (fun v => v.name) ∧
        (recordsFor source crd).length =
          (crd.spec.versions.filter hasEmbeddedSchema).length) := by
  refine ⟨parseCRDs_eq_flatMap crds source, ?_⟩
  intro crd hskip
  have hmap : (recordsFor source crd).map (fun r => r.version) =
      (crd.spec.versions.filter hasEmbeddedSchema).map (fun v => v.name) := by
    unfold recordsFor
    rw [if_neg (by simp [hskip])]
    exact recordsFor_versions source crd crd.spec.versions
  refine ⟨hmap, ?_⟩
  have := congrArg List.length hmap
  simpa using this

/-- Witness input for C5: two versions, one with a schema, one without. -/
def c5CRD : K8sCRD :=
  { apiVersion := "apiextensions.k8s.io/v1"
    kind := "CustomResourceDefinition"
    metadata := { name := "widgets.examples.k8s.io" }
    spec := { group := "examples.k8s.io"
              names := { kind := "Widget", singular := none, plural := none }
              versions := [
                { name := "v1"
                  schema := some { openAPIV3Schema := some (Json.obj [("type", Json.str "object")]) }
                  served := some true, storage := some true },
                { name := "v2", schema := none, served := some true, storage := some false }] } }

def c5Source : CRDSource :=
  CRDSource.url { id := "t", name := "t", url := "", group := "", enabled := true }

/-- Witness for C5: of the two declared versions exactly the one carrying a
schema yields a record, with matching version name. -/
theorem c5_one_record_per_version_with_schema_witness :
    (recordsFor c5Source c5CRD).map (fun r => r.version) = ["v1"] ∧
    (recordsFor c5Source c5CRD).length = 1 := by
  have h := (c5_one_record_per_version_with_schema [c5CRD] c5Source).2 c5CRD (by decide)
  refine ⟨?_, ?_⟩
  · rw [h.1]; decide
  · rw [h.2]; decide

/-- **C6.**  With a URL source carrying a non-empty group filter, every CRD
whose `spec.group` differs from the filter is excluded whole (dropping such
CRDs from the input does not change the output); with a cluster source the
per-CRD skip condition is identically false, so every CRD contributes its
versions-with-schema regardless of any group value. -/
theorem c6_group_filter_url_only (crds : List K8sCRD) (u : URLCRDSource)
    (c : K8sClusterCRDSource) :
    (u.group ≠ "" →
      parseCRDs crds (.url u) =
        parseCRDs (crds.filter (fun crd => crd.spec.group == u.group)) (.url u)) ∧
    parseCRDs crds (.cluster c) =
      crds.flatMap (fun crd => crd.spec.versions.filterMap (fun versionSpec =>
        match versionSchemaOf versionSpec with
        | some schema =>
          if truthy schema then some (mkRecord (.cluster c) crd versionSpec schema) else none
        | none => none)) := by
  constructor
  · intro hg
    rw [parseCRDs_eq_flatMap, parseCRDs_eq_flatMap]
    induction crds with
    | nil => rfl
    | cons crd crds ih =>
      by_cases hbeq : crd.spec.group = u.group
      · simp only [List.filter_cons, hbeq, beq_self_eq_true, if_true, List.flatMap_cons, ih]
      · have hskip : skipByGroupFilter (.url u) crd.spec.group = true := by
          simp [skipByGroupFilter, hg, hbeq]
        have hfil : (crd.spec.group == u.group) = false := beq_false_of_ne hbeq
        simp only [List.filter_cons, hfil, Bool.false_eq_true, if_false, List.flatMap_cons, ih]
        rw [show recordsFor (.url u) crd = [] from by unfold recordsFor; rw [if_pos hskip]]
        simp
  · rw [parseCRDs_eq_flatMap]
    unfold recordsFor
    simp [skipByGroupFilter]

/-- Witness input for C6: a CRD in a group the URL filter rejects. -/
def c6CRD : K8sCRD :=
  { apiVersion := "apiextensions.k8s.io/v1"
    kind := "CustomResourceDefinition"
    metadata := { name := "others.other.example.io" }
    spec := { group := "other.example.io"
              names := { kind := "Other", singular := none, plural := none }
              versions := [
                { name := "v1"
                  schema := some { openAPIV3Schema := some (Json.obj [("type", Json.str "object")]) }
                  served := none, storage := none }] } }

def c6URL : URLCRDSource :=
  { id := "s", name := "S", url := "", group := "examples.k8s.io", enabled := true }

def c6Cluster : K8sClusterCRDSource :=
  { id := "k", name := "K", context := none, nsFilter := none, apiServerUrl := none,
    caPath := none, enabled := true }

/-- Witness for C6: the URL filter excludes the foreign-group CRD entirely,
while the cluster source still emits its record. -/
theorem c6_group_filter_url_only_witness :
    parseCRDs [c6CRD] (.url c6URL) = [] ∧
    (parseCRDs [c6CRD] (.cluster c6Cluster)).length = 1 := by
  have h := (c6_group_filter_url_only [c6CRD] c6URL c6Cluster).1 (by decide)
  refine ⟨?_, by decide⟩
  rw [h]
  decide

/-! ## Claim C3 (what a sync run writes) -/

theorem setKV_keys_sub {m : List (String × Json)} {k k' : String} {v : Json}
    (h : k' ∈ m.map Prod.fst) : k' ∈ (setKV m k v).map Prod.fst := by
  unfold setKV
  split
  · have heq : (m.map (fun e => if e.1 == k then (k, v) else e)).map Prod.fst =
        m.map Prod.fst := by
      rw [List.map_map]
      refine List.map_congr_left ?_
      intro e _
      by_cases hek : e.1 = k <;> simp [hek]
    rw [heq]
    exact h
  · rw [List.map_append]
    exact List.mem_append_left _ h

theorem setKV_keys_self {m : List (String × Json)} {k : String} {v : Json} :
    k ∈ (setKV m k v).map Prod.fst := by
  unfold setKV
  split
  · rename_i hany
    rw [List.any_eq_true] at hany
    obtain ⟨e, hem, hek⟩ := hany
    have hkeq : e.1 = k := by simpa using hek
    have heq : (m.map (fun e => if e.1 == k then (k, v) else e)).map Prod.fst =
        m.map Prod.fst := by
      rw [List.map_map]
      refine List.map_congr_left ?_
      intro e _
      by_cases hek2 : e.1 = k <;> simp [hek2]
    rw [heq, ← hkeq]
    exact List.mem_map.mpr ⟨e, hem, rfl⟩
  · rw [List.map_append]
    exact List.mem_append_right _ (by simp)

theorem saveSchemas_keys_mono (workDir : String) :
    ∀ (crds : List ParsedCRD) (st : List (String × Json) × FS) (k : String),
      k ∈ st.1.map Prod.fst → k ∈ (crds.foldl (saveStep workDir) st).1.map Prod.fst := by
  intro crds
  induction crds with
  | nil => intro st k h; exact h
  | cons crd crds ih =>
    intro st k h
    rw [List.foldl_cons]
    exact ih _ k (setKV_keys_sub h)

/-- Every record handed to `saveSchemas` gets its relative schema path into
the returned files map — the write is unconditional. -/
theorem saveSchemas_writes_every_record (workDir : String) :
    ∀ (crds : List ParsedCRD) (st : List (String × Json) × FS) (crd : ParsedCRD),
      crd ∈ crds →
      (crd.group ++ "/" ++ generateSchemaFilename crd.kind crd.version) ∈
        (crds.foldl (saveStep workDir) st).1.map Prod.fst := by
  intro crds
  induction crds with
  | nil => intro st crd h; cases h
  | cons c cs ih =>
    intro st crd h
    rcases List.mem_cons.mp h with h | h
    · subst h
      rw [List.foldl_cons]
      exact saveSchemas_keys_mono workDir cs _ _ setKV_keys_self
    · rw [List.foldl_cons]
      exact ih _ crd h

/-- Every `runSync` branch returns the same fetched list, the same files
map, the same filesystem and the same changed subset: only `success`,
`message`, `prUrl` and `errors` differ between branches. -/
theorem runSync_components (sources : List SourceFetch) (outputDir : String)
    (createPR dryRun : Bool) (githubToken : Option String)
    (prOutcome : Except String String) (fs : FS) :
    (runSync sources outputDir createPR dryRun githubToken prOutcome fs).1.generatedSchemas
        = (fetchLoop sources).1 ∧
    (runSync sources outputDir createPR dryRun githubToken prOutcome fs).1.changedSchemas
        = detectChangedSchemas (fetchLoop sources).1 outputDir fs ∧
    (runSync sources outputDir createPR dryRun githubToken prOutcome fs).2.1
        = (saveSchemas (fetchLoop sources).1 outputDir fs).1 ∧
    (runSync sources outputDir createPR dryRun githubToken prOutcome fs).2.2
        = (saveSchemas (fetchLoop sources).1 outputDir fs).2 := by
  simp only [runSync]
  rcases hfl : fetchLoop sources with ⟨gen, errs⟩
  rcases hsv : saveSchemas gen outputDir fs with ⟨files, fs2⟩
  simp only [hfl, hsv]
  cases githubToken <;> cases prOutcome <;> cases dryRun <;>
    refine ⟨?_, ?_, ?_, ?_⟩ <;> split_ifs <;> rfl

/-- **C3 (amended).**  A full sync run persists *every* fetched record, not
only the changed ones: `runSync` hands `saveSchemas` the complete
`allCRDs` list, so each record's canonical relative path appears in the
files map of written content regardless of whether change detection
selected it; only the PR file set is restricted to the changed subset. -/
theorem c3_run_persists_every_record (sources : List SourceFetch) (outputDir : String)
    (createPR dryRun : Bool) (githubToken : Option String)
    (prOutcome : Except String String) (fs : FS) (crd : ParsedCRD)
    (h : crd ∈ (runSync sources outputDir createPR dryRun githubToken prOutcome fs).1.generatedSchemas) :
    (crd.group ++ "/" ++ generateSchemaFilename crd.kind crd.version) ∈
      ((runSync sources outputDir createPR dryRun githubToken prOutcome fs).2.1.map Prod.fst) := by
  obtain ⟨hgen, _, hfiles, _⟩ :=
    runSync_components sources outputDir createPR dryRun githubToken prOutcome fs
  rw [hfiles]
  rw [hgen] at h
  exact saveSchemas_writes_every_record outputDir _ _ crd h

/-- Raw CRD for the C3 run: one version, schema `{type: "object"}`. -/
def c3Raw : K8sCRD :=
  { apiVersion := "apiextensions.k8s.io/v1"
    kind := "CustomResourceDefinition"
    metadata := { name := "widgets.examples.k8s.io" }
    spec := { group := "examples.k8s.io"
              names := { kind := "Widget", singular := none, plural := none }
              versions := [
                { name := "v1"
                  schema := some { openAPIV3Schema := some (Json.obj [("type", Json.str "object")]) }
                  served := some true, storage := some true }] } }

def c3Source : CRDSource :=
  CRDSource.url { id := "t", name := "t", url := "", group := "", enabled := true }

/-- The canonical file already on disk, equal to the converted schema as a
JSON value but with its two keys in the opposite order. -/
def c3FS : FS :=
  [("schemas/examples.k8s.io/widget_v1.json",
    FileContent.jsonDoc (Json.obj [("type", Json.str "object"),
      ("$schema", Json.str jsonSchemaDraft07)]))]

/-- **C3 counterexample.**  A run in which the only record's converted
schema is structurally equal to the existing on-disk file (same JSON
value, keys reordered): change detection selects nothing, yet the run
still writes the file — its relative path is in the files map and the
on-disk content afterward differs from the content before (the stored key
order is replaced by the converter's) — so the file is *not* left
untouched, refuting the claim as stated. -/
theorem c3_unchanged_file_rewritten :
    ((runSync [⟨c3Source, .ok [c3Raw]⟩] "schemas" false false none (.ok "unused") c3FS).1.changedSchemas).length = 0 ∧
    jsonValueEq
      (convertOpenAPIv3ToJSONSchema (Json.obj [("type", Json.str "object")]))
      (Json.obj [("type", Json.str "object"), ("$schema", Json.str jsonSchemaDraft07)]) ∧
    ((runSync [⟨c3Source, .ok [c3Raw]⟩] "schemas" false false none (.ok "unused") c3FS).2.1.map Prod.fst)
      = ["examples.k8s.io/widget_v1.json"] ∧
    fsLookup (runSync [⟨c3Source, .ok [c3Raw]⟩] "schemas" false false none (.ok "unused") c3FS).2.2
        "schemas/examples.k8s.io/widget_v1.json"
      ≠ fsLookup c3FS "schemas/examples.k8s.io/widget_v1.json" := by
  refine ⟨by decide, ?_, by decide, by decide⟩
  unfold jsonValueEq
  decide

/-- The record the C3 run parses from `c3Raw`. -/
def c3Record : ParsedCRD :=
  { name := "widgets.examples.k8s.io"
    pluralName := "widgets"
    group := "examples.k8s.io"
    kind := "Widget"
    version := "v1"
    openAPIV3Schema := Json.obj [("type", Json.str "object")]
    source := c3Source }

/-- Witness for the amended C3 at the same concrete run. -/
theorem c3_run_persists_every_record_witness :
    (c3Record.group ++ "/" ++ generateSchemaFilename c3Record.kind c3Record.version) ∈
      ((runSync [⟨c3Source, .ok [c3Raw]⟩] "schemas" false false none (.ok "unused") c3FS).2.1.map
        Prod.fst) :=
  c3_run_persists_every_record [⟨c3Source, .ok [c3Raw]⟩] "schemas" false false none
    (.ok "unused") c3FS c3Record (by decide)

/-! ## Claim C9 (partial-failure policy of the orchestrator) -/

/-- The record list one source contributes to `allCRDs`. -/
def fetchGenOf (sf : SourceFetch) : List ParsedCRD :=
  if sf.source.enabled = false then []
  else
    match sf.outcome with
    | .ok crds => parseCRDs crds sf.source
    | .error _ => []

/-- The error string one source contributes (enabled and failing only). -/
def fetchErrOf (sf : SourceFetch) : Option String :=
  if sf.source.enabled = false then none
  else
    match sf.outcome with
    | .ok _ => none
    | .error e => some ("Failed to fetch from " ++ sf.source.name ++ ": " ++ e)

theorem fetchLoop_eq (sources : List SourceFetch) :
    fetchLoop sources = (sources.flatMap fetchGenOf, sources.filterMap fetchErrOf) := by
  have h : ∀ (l : List SourceFetch) (st : List ParsedCRD × List String),
      l.foldl (fun st sf =>
        if sf.source.enabled = false then st
        else
          match sf.outcome with
          | .ok crds => (st.1 ++ parseCRDs crds sf.source, st.2)
          | .error e =>
            (st.1, st.2 ++ ["Failed to fetch from " ++ sf.source.name ++ ": " ++ e])) st =
        (st.1 ++ l.flatMap fetchGenOf, st.2 ++ l.filterMap fetchErrOf) := by
    intro l
    induction l with
    | nil => intro st; simp
    | cons sf l ih =>
      intro st
      rw [List.foldl_cons]
      by_cases hen : sf.source.enabled = false
      · simp only [hen, if_true, ih, List.flatMap_cons, List.filterMap_cons, fetchGenOf,
          fetchErrOf]
        simp [hen]
      · cases hout : sf.outcome with
        | ok crds =>
          simp only [hen, if_false, hout, ih, List.flatMap_cons, List.filterMap_cons,
            fetchGenOf, fetchErrOf]
          simp [hen, hout, List.append_assoc]
        | error e =>
          simp only [hen, if_false, hout, ih, List.flatMap_cons, List.filterMap_cons,
            fetchGenOf, fetchErrOf]
          simp [hen, hout, List.append_assoc]
  rw [fetchLoop, h]
  simp

theorem runSync_success_iff (sources : List SourceFetch)
    (outputDir : String) (createPR dryRun : Bool) (githubToken : Option String)
    (prOutcome : Except String String) (fs : FS) :
    (runSync sources outputDir createPR dryRun githubToken prOutcome fs).1.success = false ↔
      (createPR = true ∧
        (detectChangedSchemas (sources.flatMap fetchGenOf) outputDir fs).length ≠ 0 ∧
        (githubToken = none ∨ (dryRun = false ∧ ∃ e, prOutcome = .error e))) := by
  simp only [runSync, fetchLoop_eq]
  rcases hsv : saveSchemas (sources.flatMap fetchGenOf) outputDir fs with ⟨files, fs2⟩
  cases githubToken <;> rcases prOutcome with e | url <;> cases dryRun <;>
    split_ifs <;> simp_all

theorem runSync_errors_extra (sources : List SourceFetch)
    (outputDir : String) (createPR dryRun : Bool) (githubToken : Option String)
    (prOutcome : Except String String) (fs : FS) :
    ∃ extra,
      (runSync sources outputDir createPR dryRun githubToken prOutcome fs).1.errors =
        sources.filterMap fetchErrOf ++ extra ∧
      ((runSync sources outputDir createPR dryRun githubToken prOutcome fs).1.success = true →
        extra = []) := by
  simp only [runSync, fetchLoop_eq]
  rcases hsv : saveSchemas (sources.flatMap fetchGenOf) outputDir fs with ⟨files, fs2⟩
  simp only [hsv]
  cases githubToken <;> rcases prOutcome with e | url <;> cases dryRun <;> split_ifs
  all_goals first
    | (refine ⟨[], ?_, ?_⟩ <;> (simp; done))
    | (refine ⟨[tokenRequiredMsg], ?_, ?_⟩ <;> (simp; done))
    | (refine ⟨[e], ?_, ?_⟩ <;> (simp; done))

theorem download_always_succeeds (sources : List SourceFetch) (outputDir : String) (fs : FS) :
    (downloadCRDsFromSources sources outputDir fs).1.success = true ∧
    (downloadCRDsFromSources sources outputDir fs).1.errors =
      sources.filterMap fetchErrOf := by
  simp only [downloadCRDsFromSources, fetchLoop_eq]
  rcases saveSchemas (sources.flatMap fetchGenOf) outputDir fs with ⟨files, fs2⟩
  exact ⟨trivial, trivial⟩

/-- **C9.**  `runSync` and `downloadCRDsFromSources` succeed even when
fetching fails for some or all enabled sources.  Per-source failures only
contribute their `Failed to fetch from {name}: {error}` strings to the
error list (one per enabled failing source, in order); the only paths to
`success = false` in `runSync` are the steps after the loop — PR creation
requested with changes while the token is missing, or the (non-dry-run)
GitHub call failing — and `downloadCRDsFromSources` always returns
`success = true`. -/
theorem c9_fetch_failures_only_append_errors (sources : List SourceFetch)
    (outputDir : String) (createPR dryRun : Bool) (githubToken : Option String)
    (prOutcome : Except String String) (fs : FS) :
    ((runSync sources outputDir createPR dryRun githubToken prOutcome fs).1.success = false ↔
      (createPR = true ∧
        (detectChangedSchemas (sources.flatMap fetchGenOf) outputDir fs).length ≠ 0 ∧
        (githubToken = none ∨ (dryRun = false ∧ ∃ e, prOutcome = .error e)))) ∧
    (∃ extra,
      (runSync sources outputDir createPR dryRun githubToken prOutcome fs).1.errors =
        sources.filterMap fetchErrOf ++ extra ∧
      ((runSync sources outputDir createPR dryRun githubToken prOutcome fs).1.success = true →
        extra = [])) ∧
    (downloadCRDsFromSources sources outputDir fs).1.success = true ∧
    (downloadCRDsFromSources sources outputDir fs).1.errors =
      sources.filterMap fetchErrOf :=
  ⟨runSync_success_iff sources outputDir createPR dryRun githubToken prOutcome fs,
   runSync_errors_extra sources outputDir createPR dryRun githubToken prOutcome fs,
   (download_always_succeeds sources outputDir fs).1,
   (download_always_succeeds sources outputDir fs).2⟩

/-- A run whose only enabled source fails to fetch. -/
def c9FailingSources : List SourceFetch :=
  [⟨CRDSource.url { id := "s1", name := "S1", url := "", group := "", enabled := true },
    .error "boom"⟩]

/-- Witness for C9: with every source failing and no PR requested, the run
still succeeds and records exactly the per-source error string. -/
theorem c9_fetch_failures_only_append_errors_witness :
    (runSync c9FailingSources "schemas" false false none (.ok "u") []).1.success = true ∧
    (runSync c9FailingSources "schemas" false false none (.ok "u") []).1.errors =
      ["Failed to fetch from S1: boom"] := by
  have h := c9_fetch_failures_only_append_errors c9FailingSources "schemas" false false none
    (.ok "u") []
  have hsucc : (runSync c9FailingSources "schemas" false false none (.ok "u") []).1.success
      = true := by
    rcases hb : (runSync c9FailingSources "schemas" false false none (.ok "u") []).1.success
    · exact absurd (h.1.mp hb).1 (by decide)
    · rfl
  refine ⟨hsucc, ?_⟩
  obtain ⟨extra, herr, hext⟩ := h.2.1
  rw [herr, hext hsucc]
  decide

/-! ## Claim C8 (credential-plugin failure handling) -/

theorem execTokenOf_fails_none (e : ExecRes) (h : execFails e = true) :
    execTokenOf e = none := by
  cases e <;> simp_all [execTokenOf, execFails]

theorem execAttemptToken_none (u : UserEntryData) : execAttemptToken u none = none := by
  unfold execAttemptToken
  repeat' split
  all_goals rfl

/-- **C8.**  A failure to invoke the exec credential plugin or to parse its
standard output never aborts resolution: the whole run of `getAuthConfig`
under a failing plugin outcome equals the run in which the plugin yields no
token (so server URL, certificate paths, CA path and TLS flag — every
other resolved field — are untouched), and whenever that run resolves
successfully the returned profile's token is exactly the static token of
the user entry — `none` in the claim's scenario of no static token. -/
theorem c8_exec_failure_no_token_no_abort (kc : KubeConfig)
    (contextName home : Option String) (now : Nat) (e : ExecRes)
    (hfail : execFails e = true) :
    getAuthConfig kc contextName home now e =
      getAuthConfigCore kc contextName home now none ∧
    ∀ cfg, getAuthConfigCore kc contextName home now none = .ok cfg →
      cfg.token = staticTokenOf kc contextName := by
  constructor
  · unfold getAuthConfig
    rw [execTokenOf_fails_none e hfail]
  · intro cfg h
    unfold getAuthConfigCore at h
    unfold staticTokenOf resolvedUser
    cases hscrut : (if strOptTruthy contextName then contextName else kc.currentContext) with
    | none => rw [hscrut] at h; simp at h
    | some ctxName =>
      simp only [hscrut] at h ⊢
      by_cases hc0 : ctxName = ""
      · simp [hc0] at h
      · simp only [hc0, if_false] at h ⊢
        cases hf1 : kc.contexts.find? (fun c => c.name == ctxName) with
        | none => simp only [hf1] at h; simp at h
        | some context =>
          simp only [hf1] at h ⊢
          cases hf2 : kc.clusters.find? (fun c => c.name == context.context.cluster) with
          | none => simp only [hf2] at h; simp at h
          | some cluster =>
            simp only [hf2] at h
            cases hsv : cluster.cluster.server with
            | none => simp only [hsv] at h; simp at h
            | some serverUrl =>
              simp only [hsv] at h
              by_cases hs0 : serverUrl = ""
              · simp [hs0] at h
              · simp only [hs0, if_false] at h
                cases hfu : kc.users.find? (fun u => u.name == context.context.user) with
                | none =>
                  simp only [hfu] at h ⊢
                  simp only [Except.ok.injEq] at h
                  simp [← h]
                | some u =>
                  simp only [hfu] at h ⊢
                  simp only [Except.ok.injEq] at h
                  by_cases htk : strOptTruthy u.user.token = true
                  · simp [← h, htk]
                  · simp only [Bool.not_eq_true] at htk
                    simp [← h, htk, execAttemptToken_none]

/-- A kubeconfig whose user has no static token and declares an exec
credential plugin. -/
def c8KC : KubeConfig :=
  { clusters := [⟨"cl", ⟨some "https://127.0.0.1:6443", none, none, none⟩⟩]
    contexts := [⟨"test-context", ⟨"cl", "u1"⟩⟩]
    currentContext := some "test-context"
    users := [⟨"u1", ⟨none, none, none, none, none,
      some (Json.obj [("command", Json.str "gke-gcloud-auth-plugin")])⟩⟩] }

/-- The profile the resolver produces for `c8KC`: unauthenticated but with
the server URL (and every other field) intact. -/
def c8Expected : K8sAuthConfig :=
  { serverUrl := "https://127.0.0.1:6443", token := none, cert := none, key := none,
    caPath := none, skipTlsVerify := none }

/-- Witness for C8: on `c8KC`, a plugin invocation failure still resolves
to `ok` with no token. -/
theorem c8_exec_failure_no_token_no_abort_witness :
    getAuthConfig c8KC none none 0 ExecRes.invokeError = .ok c8Expected ∧
    c8Expected.token = none :=
  have h := c8_exec_failure_no_token_no_abort c8KC none none 0 ExecRes.invokeError (by decide)
  ⟨h.1.trans (by rfl), (h.2 c8Expected (by rfl)).trans (by rfl)⟩

/-! ## Fuel irrelevance of the converter

Any fuel at least `jsize j` gives the same result, so the bound used by
`convertSchema` is immaterial — the out-of-fuel branch is unreachable. -/

theorem jsize_mem_fields {e : String × Json} :
    ∀ {fs : List (String × Json)}, e ∈ fs → jsize e.2 < jsizeFields fs := by
  intro fs
  induction fs with
  | nil => intro h; cases h
  | cons g gs ih =>
    intro h
    rcases List.mem_cons.mp h with h | h
    · subst h; simp [jsizeFields]; omega
    · have := ih h; simp [jsizeFields]; omega

theorem jsize_mem_list {x : Json} :
    ∀ {xs : List Json}, x ∈ xs → jsize x < jsizeList xs := by
  intro xs
  induction xs with
  | nil => intro h; cases h
  | cons y ys ih =>
    intro h
    rcases List.mem_cons.mp h with h | h
    · subst h; simp [jsizeList]; omega
    · have := ih h; simp [jsizeList]; omega

theorem jsize_mem_arr {x : Json} {xs : List Json} (h : x ∈ xs) :
    jsize x < jsize (Json.arr xs) := by
  have := jsize_mem_list h
  simp [jsize]; omega

theorem mem_enumFrom_snd {α : Type} {p : Nat × α} :
    ∀ {xs : List α} {n : Nat}, p ∈ xs.enumFrom n → p.2 ∈ xs := by
  intro xs
  induction xs with
  | nil => intro n h; cases h
  | cons y ys ih =>
    intro n h
    rcases List.mem_cons.mp h with h | h
    · subst h; exact List.mem_cons_self _ _
    · exact List.mem_cons_of_mem _ (ih h)

theorem jsize_entry {e : String × Json} {j : Json} (h : e ∈ entriesOf j) :
    jsize e.2 < jsize j := by
  cases j with
  | obj fs =>
    have := @jsize_mem_fields e fs h
    simp [jsize]; omega
  | arr xs =>
    simp only [entriesOf, List.mem_map] at h
    obtain ⟨p, hp, hpe⟩ := h
    have hx : p.2 ∈ xs := mem_enumFrom_snd (by simpa [List.enum] using hp)
    have := jsize_mem_arr hx
    rw [← hpe]
    simpa using this
  | null => cases h
  | bool b => cases h
  | num n => cases h
  | str s => cases h
  | undef => cases h

theorem jsGet_size {j v : Json} {k : String} (h : jsGet j k = some v) :
    jsize v < jsize j := by
  unfold jsGet at h
  exact jsize_entry (lookup_eq_some_mem h)

theorem fieldItems_congr {j : Json} {c₁ c₂ : Json → Json}
    (hc : ∀ v, jsGet j "items" = some v → c₁ v = c₂ v) :
    fieldItems j c₁ = fieldItems j c₂ := by
  unfold fieldItems
  cases hv : jsGet j "items" with
  | none => rfl
  | some v => dsimp only; rw [hc v hv]

theorem fieldProperties_congr {j : Json} {c₁ c₂ : Json → Json}
    (hc : ∀ p e, jsGet j "properties" = some p → e ∈ entriesOf p → c₁ e.2 = c₂ e.2) :
    fieldProperties j c₁ = fieldProperties j c₂ := by
  unfold fieldProperties
  cases hp : jsGet j "properties" with
  | none => rfl
  | some p =>
    dsimp only
    split
    · have : (entriesOf p).map (fun e => (e.1, c₁ e.2)) =
          (entriesOf p).map (fun e => (e.1, c₂ e.2)) :=
        List.map_congr_left (fun e he => by rw [hc p e hp he])
      rw [this]
    · rfl

theorem fieldAdditional_congr {j : Json} {c₁ c₂ : Json → Json}
    (hc : ∀ v, jsGet j "additionalProperties" = some v → c₁ v = c₂ v) :
    fieldAdditional j c₁ = fieldAdditional j c₂ := by
  unfold fieldAdditional
  cases hv : jsGet j "additionalProperties" with
  | none => rfl
  | some v => dsimp only; rw [hc v hv]

theorem fieldCombinator_congr {j : Json} {k : String} {c₁ c₂ : Json → Json}
    (hc : ∀ xs x, jsGet j k = some (.arr xs) → x ∈ xs → c₁ x = c₂ x) :
    fieldCombinator j k c₁ = fieldCombinator j k c₂ := by
  unfold fieldCombinator
  cases hv : jsGet j k with
  | none => rfl
  | some v =>
    cases v with
    | arr xs =>
      dsimp only
      have : xs.map c₁ = xs.map c₂ := List.map_congr_left (fun x hx => hc xs x hv hx)
      rw [this]
    | null => rfl
    | bool b => rfl
    | num n => rfl
    | str s => rfl
    | obj fs => rfl
    | undef => rfl

theorem fieldNot_congr {j : Json} {c₁ c₂ : Json → Json}
    (hc : ∀ v, jsGet j "not" = some v → c₁ v = c₂ v) :
    fieldNot j c₁ = fieldNot j c₂ := by
  unfold fieldNot
  cases hv : jsGet j "not" with
  | none => rfl
  | some v => dsimp only; rw [hc v hv]

theorem convertFieldsPre_congr {j : Json} {c₁ c₂ : Json → Json}
    (hc : ∀ v, jsize v < jsize j → c₁ v = c₂ v) :
    convertFieldsPre j c₁ = convertFieldsPre j c₂ := by
  unfold convertFieldsPre
  rw [fieldItems_congr (fun v hv => hc v (jsGet_size hv)),
    fieldProperties_congr (fun p e hp he =>
      hc e.2 (lt_trans (jsize_entry he) (jsGet_size hp))),
    fieldAdditional_congr (fun v hv => hc v (jsGet_size hv)),
    @fieldCombinator_congr j "allOf" c₁ c₂ (fun xs x hv hx =>
      hc x (lt_trans (jsize_mem_arr hx) (jsGet_size hv))),
    @fieldCombinator_congr j "anyOf" c₁ c₂ (fun xs x hv hx =>
      hc x (lt_trans (jsize_mem_arr hx) (jsGet_size hv))),
    @fieldCombinator_congr j "oneOf" c₁ c₂ (fun xs x hv hx =>
      hc x (lt_trans (jsize_mem_arr hx) (jsGet_size hv))),
    fieldNot_congr (fun v hv => hc v (jsGet_size hv))]

/-- Fuel irrelevance: any two sufficient fuels agree. -/
theorem convertGo_fuel_eq :
    ∀ (n : Nat) (j : Json) (f₁ f₂ : Nat), jsize j ≤ n → jsize j ≤ f₁ → jsize j ≤ f₂ →
      convertGo f₁ j = convertGo f₂ j := by
  intro n
  induction n using Nat.strong_induction_on with
  | _ n ih =>
    intro j f₁ f₂ hn h1 h2
    have hp := jsize_pos j
    obtain ⟨g₁, rfl⟩ : ∃ g, f₁ = g + 1 := ⟨f₁ - 1, by omega⟩
    obtain ⟨g₂, rfl⟩ : ∃ g, f₂ = g + 1 := ⟨f₂ - 1, by omega⟩
    simp only [convertGo]
    by_cases hs : isSchemaNode j = false
    · rw [if_pos hs, if_pos hs]
    · rw [if_neg hs, if_neg hs]
      have hpre : convertFieldsPre j (convertGo g₁) = convertFieldsPre j (convertGo g₂) := by
        refine convertFieldsPre_congr ?_
        intro v hv
        exact ih (jsize v) (by omega) v g₁ g₂ le_rfl (by omega) (by omega)
      rw [hpre]

/-- `convertSchema` equals the fuel version at every sufficient fuel; the
bound `jsize j` used in its definition is immaterial. -/
theorem convertSchema_eq_convertGo (j : Json) (f : Nat) (hf : jsize j ≤ f) :
    convertSchema j = convertGo f j :=
  convertGo_fuel_eq (jsize j) j (jsize j) f le_rfl le_rfl hf
